import Mathlib

/-!
Verification development for the AtomicStruct core
(`src/atomic/atomic_struct.py` of the PPRE repository).

The Python code builds an ordered field table with an insertion cursor,
compiles it with `freeze()` into a ctypes `Structure` (with `_pack_ = 32`),
and serializes/deserializes the live instance with `save()`/`load()`.

We embed the data model and the operations the claims need:
  * `CType` mirrors the ctypes type expressions the code constructs
    (simple integer types such as `ctypes.c_uint16`, fixed arrays built
    with `*`, and compiled nested `Structure` types);
  * the layout functions mirror the ctypes layout algorithm for a
    structure with `_pack_ = n`: every field is placed at the next offset
    that is a multiple of `min(natural alignment, n)`, the structure's
    alignment is the maximum of those capped field alignments, and the
    total size is the end of the last field rounded up to the structure
    alignment.  The code always passes `_pack_ = 32` (bytes), which never
    caps the alignment of the primitive types involved;
  * `AtomicState` mirrors the mutable attributes of an `AtomicStruct`
    object, and each Python method becomes a state-passing function
    returning `AtomicState × Except AtomicErr α` (the returned state is
    the object state after the call, also on the exception path).

Bit-width fields (the `width=` kwarg, ctypes bitfields) are recorded in
the field table exactly as the code records them, but the layout
functions are only used on width-free fields; no claim exercises a
bitfield layout.
-/

namespace AtomicStruct

/-- A ctypes type expression as constructed by the code.
`prim stem size`: a simple integer/char type; `stem` is the C-header
spelling that `describe()` extracts via `type.__name__[2:]`
(e.g. `ctypes.c_uint16` has `__name__ = "c_ushort"`, giving `"ushort"`),
and `size` is `ctypes.sizeof` of the type.  A simple ctypes integer
type's natural alignment equals its size.
`array elem length`: `elem * length`.
`struct name fields`: a compiled `ctypes.Structure` subclass; `name` is
the generated class `__name__` (the code uses `self.name + "_s"`). -/
inductive CType where
  | prim : String → Nat → CType
  | array : CType → Nat → CType
  | struct : String → List (String × CType) → CType
deriving Repr

/-- `ctypes.c_uint8` (`__name__ = "c_ubyte"`). -/
def c_uint8 : CType := .prim "ubyte" 1
/-- `ctypes.c_int8` (`__name__ = "c_byte"`). -/
def c_int8 : CType := .prim "byte" 1
/-- `ctypes.c_uint16` (`__name__ = "c_ushort"`). -/
def c_uint16 : CType := .prim "ushort" 2
/-- `ctypes.c_int16` (`__name__ = "c_short"`). -/
def c_int16 : CType := .prim "short" 2
/-- `ctypes.c_uint32` (`__name__ = "c_uint"`). -/
def c_uint32 : CType := .prim "uint" 4
/-- `ctypes.c_int32` (`__name__ = "c_int"`). -/
def c_int32 : CType := .prim "int" 4
/-- `ctypes.c_char`. -/
def c_char : CType := .prim "char" 1

/-- The pack value the code always uses: `_pack_ = self.alignment = 32`
(interpreted by ctypes in bytes, like `#pragma pack(32)`). -/
def packCap : Nat := 32

/-- Round `n` up to the next multiple of `a` (`a = 0` leaves `n`). -/
def alignUp (n a : Nat) : Nat := if a = 0 then n else (n + a - 1) / a * a

mutual

/-- `ctypes.sizeof` of a type expression under `_pack_ = 32`. -/
def ctypeSize : CType → Nat
  | .prim _ s => s
  | .array t n => ctypeSize t * n
  | .struct _ fs => alignUp (structEnd fs 0) (structAlign fs 1)

/-- ctypes `alignment()` of a type expression under `_pack_ = 32`. -/
def ctypeAlign : CType → Nat
  | .prim _ s => min s packCap
  | .array t _ => ctypeAlign t
  | .struct _ fs => structAlign fs 1

/-- Offset just past the last field, starting the layout at `cur`. -/
def structEnd : List (String × CType) → Nat → Nat
  | [], cur => cur
  | f :: fs, cur =>
      structEnd fs (alignUp cur (min (ctypeAlign f.2) packCap) + ctypeSize f.2)

/-- Maximum capped field alignment, accumulated in `a` (at least 1). -/
def structAlign : List (String × CType) → Nat → Nat
  | [], a => a
  | f :: fs, a => structAlign fs (max a (min (ctypeAlign f.2) packCap))

end

/-- The per-field layout ctypes computes: for each field, its name,
byte offset and byte size, laying the fields out from offset `cur`. -/
def fieldLayout : List (String × CType) → Nat → List (String × Nat × Nat)
  | [], _ => []
  | f :: fs, cur =>
      let off := alignUp cur (min (ctypeAlign f.2) packCap)
      (f.1, off, ctypeSize f.2) :: fieldLayout fs (off + ctypeSize f.2)

/-- First layout entry for a field name. -/
def lookupLayout : List (String × Nat × Nat) → String → Option (Nat × Nat)
  | [], _ => none
  | e :: es, n => if e.1 = n then some e.2 else lookupLayout es n

/-- One entry of `self._fields`: the Python tuple `(name, type_)` or
`(name, type_, width)` stored by `_add`. -/
structure Field where
  name : String
  type : CType
  width : Option Nat
deriving Repr

/-- The exceptions the code raises (and, for `load`, the `ValueError`
ctypes raises in `from_buffer_copy` on a short buffer; the spec names it
ShortReadError).  `notFrozen` stands for the `TypeError` raised when
`ctypes.sizeof(None)` is evaluated on an unfrozen struct. -/
inductive AtomicErr where
  | frozenErr
  | reservedName
  | notFound : String → AtomicErr
  | cursorRewind
  | shortRead
  | notFrozen
deriving Repr, DecidableEq

/-- The mutable attributes of an `AtomicStruct` object.
`fieldPos` is `context['field_pos']` — an `Int`, because Python lets it
go to `-1` transiently inside `replace` (cursor set to the slot of the
removed field, then decremented by `remove`).  `data` is the instance
byte image (`self._data`), `none` before `freeze`; `ctype` is the
compiled type (`self._type`). -/
structure AtomicState where
  typeName : String
  fields : List Field
  anonymous : List String
  ctype : Option CType
  data : Option (List Nat)
  defaults : List (String × Nat)
  fieldPos : Int
  simulate : Bool
deriving Repr

/-- `AtomicStruct.__init__(name)`. -/
def mkAtomic (name : String) : AtomicState :=
  { typeName := name, fields := [], anonymous := [], ctype := none,
    data := none, defaults := [], fieldPos := 0, simulate := false }

/-- Python `list.insert(i, a)`: negative indices count from the end and
clamp at 0; indices past the end append. -/
def pyInsert {α : Type} (xs : List α) (i : Int) (a : α) : List α :=
  let n : Int := xs.length
  let j : Nat := (if i < 0 then max (n + i) 0 else min i n).toNat
  xs.take j ++ a :: xs.drop j

/-- Python dict assignment `d[k] = v`. -/
def dictSet (d : List (String × Nat)) (k : String) (v : Nat) :
    List (String × Nat) :=
  if d.any (fun e => e.1 = k) then
    d.map (fun e => if e.1 = k then (k, v) else e)
  else d ++ [(k, v)]

/-- The scan behind `AtomicStruct._find`: index and tuple of the first
field with the given name (`none` models the `IndexError`). -/
def findIdxAux : List Field → String → Nat → Option (Nat × Field)
  | [], _, _ => none
  | f :: fs, n, i => if f.name = n then some (i, f) else findIdxAux fs n (i + 1)

/-- `AtomicStruct._find(name)`. -/
def _find (st : AtomicState) (name : String) : Option Nat :=
  (findIdxAux st.fields name 0).map (fun e => e.1)

/-- `AtomicStruct._add(name, type_, width=?, default=?)`.  Order of the
checks is the code's: the simulate flag short-circuits everything; then
the frozen check (`self._data is not None`), then the `'_'` sentinel
check; only then the insertion at the cursor, the cursor increment and
the default recording. -/
def _add (st : AtomicState) (name : String) (ty : CType)
    (width : Option Nat) (default : Option Nat) :
    AtomicState × Except AtomicErr (String × CType) :=
  if st.simulate then (st, .ok (name, ty))
  else if st.data.isSome then (st, .error .frozenErr)
  else if name = "_" then (st, .error .reservedName)
  else
    let st' := { st with
      fields := pyInsert st.fields st.fieldPos ⟨name, ty, width⟩,
      fieldPos := st.fieldPos + 1,
      defaults := match default with
        | some d => dictSet st.defaults name d
        | none => st.defaults }
    (st', .ok (name, ty))

/-- `AtomicStruct.uint8(name, ...)`. -/
def uint8 (st : AtomicState) (name : String) (width default : Option Nat) :
    AtomicState × Except AtomicErr (String × CType) :=
  _add st name c_uint8 width default

/-- `AtomicStruct.uint16(name, ...)`. -/
def uint16 (st : AtomicState) (name : String) (width default : Option Nat) :
    AtomicState × Except AtomicErr (String × CType) :=
  _add st name c_uint16 width default

/-- `AtomicStruct.uint32(name, ...)`. -/
def uint32 (st : AtomicState) (name : String) (width default : Option Nat) :
    AtomicState × Except AtomicErr (String × CType) :=
  _add st name c_uint32 width default

/-- Exit action of `AtomicContext.__exit__` for a `rel=True` context on
`field_pos`: `cur` is the cursor at exit time, `old` the value saved at
`__enter__`, `value` the position the context installed. -/
def ctxExitRel (cur old value : Int) : Int :=
  if old > value then cur + (old - value) else old

/-- `with AtomicContext(self, 'field_pos', pos, rel=True): body` —
enter (save old cursor, install `pos`), run `body`, exit with the
relative-restore rule.  The exit action runs on every path; our bodies
return their exception instead of raising, so the state they return is
the state at the raise point, exactly as Python's `with` sees it. -/
def withFieldPos {α : Type} (st : AtomicState) (pos : Int)
    (body : AtomicState → AtomicState × Except AtomicErr α) :
    AtomicState × Except AtomicErr α :=
  let old := st.fieldPos
  let r := body { st with fieldPos := pos }
  ({ r.1 with fieldPos := ctxExitRel r.1.fieldPos old pos }, r.2)

/-- `with self.simulate(): body` — `AtomicContext(self, 'simulate')`
saves the old flag, sets it to `True`, and `__exit__` (rel=False)
restores the saved value unconditionally, also when `body` raises. -/
def withSimulate {α : Type} (st : AtomicState)
    (body : AtomicState → AtomicState × Except AtomicErr α) :
    AtomicState × Except AtomicErr α :=
  let old := st.simulate
  let r := body { st with simulate := true }
  ({ r.1 with simulate := old }, r.2)

/-- `with self.after(name): body`.  `after` computes the target position
before creating the context, so an unknown name raises without entering
the scope. -/
def afterRun {α : Type} (st : AtomicState) (name : Option String)
    (body : AtomicState → AtomicState × Except AtomicErr α) :
    AtomicState × Except AtomicErr α :=
  match name with
  | none => withFieldPos st 0 body
  | some n =>
    match _find st n with
    | none => (st, .error (.notFound n))
    | some pos => withFieldPos st ((pos : Int) + 1) body

/-- `AtomicStruct.remove(name)`.  Note the code's order: lookup, then the
simulate short-circuit, then the cursor test `field_pos >= pos` (whose
success branch decrements the cursor **before** popping, and whose
failure branch raises with no state change).  There is no frozen check. -/
def remove (st : AtomicState) (name : String) :
    AtomicState × Except AtomicErr Field :=
  match findIdxAux st.fields name 0 with
  | none => (st, .error (.notFound name))
  | some (pos, f) =>
    if st.simulate then (st, .ok f)
    else if st.fieldPos ≥ (pos : Int) then
      ({ st with fieldPos := st.fieldPos - 1,
                 fields := st.fields.eraseIdx pos }, .ok f)
    else (st, .error .cursorRewind)

/-- `with self.replace(name): body`.  `replace` finds the slot, enters a
`rel=True` cursor context at it, removes the old field inside that
context, exits it, and returns the same context object; the caller's
`with` then re-enters it around `body`. -/
def replaceRun {α : Type} (st : AtomicState) (name : String)
    (body : AtomicState → AtomicState × Except AtomicErr α) :
    AtomicState × Except AtomicErr α :=
  match _find st name with
  | none => (st, .error (.notFound name))
  | some pos =>
    match withFieldPos st (pos : Int) (fun s => remove s name) with
    | (st1, .ok _) => withFieldPos st1 (pos : Int) body
    | (st1, .error e) => (st1, .error e)

/-- `AtomicStruct.get_type(type_callable, base_obj)`: run the builder
with the sentinel name `'_'` inside `base_obj.simulate()` and keep the
type half of the returned pair. -/
def get_type (base : AtomicState)
    (callable : AtomicState → String → AtomicState × Except AtomicErr (String × CType)) :
    AtomicState × Except AtomicErr CType :=
  withSimulate base (fun s =>
    match callable s "_" with
    | (s', .ok f) => (s', .ok f.2)
    | (s', .error e) => (s', .error e))

/-- `AtomicStruct.base_struct(name)`: `(name, self._type)`.  On an
unfrozen struct Python returns `(name, None)`, which only fails later
inside `freeze`; no claim exercises that, so we surface `notFrozen`
directly. -/
def base_struct (st : AtomicState) (name : String) :
    AtomicState × Except AtomicErr (String × CType) :=
  match st.ctype with
  | some t => (st, .ok (name, t))
  | none => (st, .error .notFrozen)

/-- `AtomicStruct.array(name, type_callable, length=n)` with
`base_obj = self`: the element type is harvested under simulation on
this same struct, then `_add` inserts `element * length`. -/
def array (st : AtomicState) (name : String)
    (callable : AtomicState → String → AtomicState × Except AtomicErr (String × CType))
    (length : Nat) : AtomicState × Except AtomicErr (String × CType) :=
  match get_type st callable with
  | (st1, .ok t) => _add st1 name (.array t length) none none
  | (st1, .error e) => (st1, .error e)

/-- `AtomicStruct.embed(name, type_callable, base_obj)` for an external
`base_obj`: `self._anonymous.append(name)` happens first, then the type
is harvested from `base_obj` under its simulation flag and added.  The
builders used here (`base_struct`) leave `base_obj` unchanged, so the
model drops the base state after harvesting, as the parent keeps no
reference to it. -/
def embed (st : AtomicState) (name : String) (base : AtomicState)
    (callable : AtomicState → String → AtomicState × Except AtomicErr (String × CType)) :
    AtomicState × Except AtomicErr (String × CType) :=
  let st1 := { st with anonymous := st.anonymous ++ [name] }
  match get_type base callable with
  | (_, .ok t) => _add st1 name t none none
  | (_, .error e) => (st1, .error e)

/-- `AtomicStruct.struct(name, type_callable, base_obj)` for an external
`base_obj` (nested composite, no flattening). -/
def structField (st : AtomicState) (name : String) (base : AtomicState)
    (callable : AtomicState → String → AtomicState × Except AtomicErr (String × CType)) :
    AtomicState × Except AtomicErr (String × CType) :=
  match get_type base callable with
  | (_, .ok t) => _add st name t none none
  | (_, .error e) => (st, .error e)

/-- Little-endian byte image of `v` in `size` bytes (how ctypes stores
the unsigned integer fields the claims use; the value is reduced mod
`256 ^ size` by the byte extraction itself). -/
def leBytes : Nat → Nat → List Nat
  | _, 0 => []
  | v, s + 1 => v % 256 :: leBytes (v / 256) s

/-- Overwrite `vals` into `bytes` starting at offset `off`. -/
def writeAt (bytes : List Nat) (off : Nat) (vals : List Nat) : List Nat :=
  bytes.take off ++ vals ++ bytes.drop (off + vals.length)

/-- Little-endian read of `size` bytes at `off`. -/
def readLE (bytes : List Nat) (off size : Nat) : Nat :=
  ((bytes.drop off).take size).foldr (fun b acc => b + 256 * acc) 0

/-- `setattr(self._data, key, value)` for a top-level field of the
compiled struct: locate the field's slice in the layout and store the
value little-endian.  (Defaults naming a non-field would raise
`AttributeError` in Python; no claim exercises that, and the claims'
defaults are unsigned top-level primitives.) -/
def setFieldBytes (fs : List (String × CType)) (bytes : List Nat)
    (name : String) (v : Nat) : List Nat :=
  match lookupLayout (fieldLayout fs 0) name with
  | some (off, sz) => writeAt bytes off (leBytes v sz)
  | none => bytes

/-- `AtomicStruct.freeze()`: compile `self._type` from the field table
(ctypes class named `self.name + '_s'`, `_pack_ = 32`), allocate the
zero-initialized instance, and apply the recorded defaults.  Bit widths
are dropped from the compiled view exactly because no claim uses them. -/
def freeze (st : AtomicState) : AtomicState :=
  let fs := st.fields.map (fun f => (f.name, f.type))
  let t := CType.struct (st.typeName ++ "_s") fs
  let inst0 := List.replicate (ctypeSize t) 0
  let inst := st.defaults.foldl (fun b kv => setFieldBytes fs b kv.1 kv.2) inst0
  { st with ctype := some t, data := some inst }

/-- `ctypes`-attribute read of a top-level unsigned field of the frozen
struct (how the reconstructed values of the round-trip claim are
observed). -/
def getField (st : AtomicState) (name : String) : Option Nat :=
  match st.ctype, st.data with
  | some (.struct _ fs), some bytes =>
    match lookupLayout (fieldLayout fs 0) name with
    | some (off, sz) => some (readLE bytes off sz)
    | none => none
  | _, _ => none

/-- `len(self)` = `ctypes.sizeof(self._data)`. -/
def lenSt (st : AtomicState) : Option Nat :=
  st.data.map List.length

/-- Byte offset of a top-level field in the compiled layout. -/
def fieldOffset (st : AtomicState) (name : String) : Option Nat :=
  match st.ctype with
  | some (.struct _ fs) => (lookupLayout (fieldLayout fs 0) name).map (fun e => e.1)
  | _ => none

/-- `AtomicStruct.save(writer)`: append the instance's raw byte image to
the writer (a fresh empty one when `none` is passed, like the default
`BinaryIO()`). -/
def save (st : AtomicState) (writer : Option (List Nat)) :
    AtomicState × Except AtomicErr (List Nat) :=
  match st.data with
  | some d => (st, .ok ((writer.getD []) ++ d))
  | none => (st, .error .notFrozen)

/-- `AtomicStruct.load(reader)`.  The byte-input collaborator
(`BinaryIO`, not under `src/`) is modelled from the spec: `read(n)`
returns the first `n` bytes of the stream, fewer only at end of stream —
the reader is the remaining stream as a list and `read n = take n`.
`from_buffer_copy` then raises (`shortRead`) when fewer than
`sizeof(self._data)` bytes came back, leaving `self._data` unassigned;
otherwise the instance is replaced by a fresh private copy of exactly
those bytes. -/
def load (st : AtomicState) (source : List Nat) :
    AtomicState × Except AtomicErr Unit :=
  match st.ctype, st.data with
  | some t, some _ =>
    let amount := ctypeSize t
    let bytes := source.take amount
    if bytes.length < amount then (st, .error .shortRead)
    else ({ st with data := some bytes }, .ok ())
  | _, _ => (st, .error .notFrozen)

/-- `load` of the bytes produced by `save` on a fresh writer. -/
def roundtrip (st : AtomicState) : AtomicState × Except AtomicErr Unit :=
  match save st none with
  | (st1, .ok w) => load st1 w
  | (st1, .error e) => (st1, .error e)

/-- `'  ' * level`. -/
def indentStr (level : Nat) : String := String.join (List.replicate level "  ")

mutual

/-- `describe`'s `handle_field`: a primitive renders indent + C stem;
a nested struct renders its full body (`handle_struct` on a compiled
nested type: the ctypes class `__name__`, which already ends in `_s`,
is interpolated into `struct {0}_s`, so the suffix doubles, exactly as
in the code); both are followed by a space and the field name; an array
renders its element as a field of the same name and appends the
bracketed length. -/
def describeField (name : String) (t : CType) (level : Nat) : String :=
  match t with
  | .prim stem _ => indentStr level ++ stem ++ " " ++ name
  | .array elem len =>
      describeField name elem level ++ "[" ++ toString len ++ "]"
  | .struct sname fs =>
      indentStr level ++ "struct " ++ sname ++ "_s \x7b\n"
        ++ describeFieldList fs (level + 1) ++ indentStr level ++ "\x7d"
        ++ " " ++ name

/-- The field loop of `handle_struct`: each field line ends in `;`. -/
def describeFieldList : List (String × CType) → Nat → String
  | [], _ => ""
  | (n, t) :: fs, level =>
      describeField n t level ++ ";\n" ++ describeFieldList fs level

end

/-- `AtomicStruct.describe()`: the top level uses the declaration list
`self._fields` and the instance name `self.name`, so it works before and
after freezing and never mutates the table. -/
def describe (st : AtomicState) : String :=
  "struct " ++ st.typeName ++ "_s \x7b\n"
    ++ describeFieldList (st.fields.map (fun f => (f.name, f.type))) 1 ++ "\x7d"

/-- Byte size of a top-level field in the compiled layout. -/
def fieldSizeSt (st : AtomicState) (name : String) : Option Nat :=
  match st.ctype with
  | some (.struct _ fs) => (lookupLayout (fieldLayout fs 0) name).map (fun e => e.2)
  | _ => none

/-- A straight-line scope body: declare the given `(name, type)` fields
in order with `_add` (as the builder methods do), stopping at the first
exception. -/
def addMany (st : AtomicState) (fs : List (String × CType)) :
    AtomicState × Except AtomicErr Unit :=
  match fs with
  | [] => (st, .ok ())
  | (n, t) :: rest =>
    match _add st n t none none with
    | (st1, .ok _) => addMany st1 rest
    | (st1, .error e) => (st1, .error e)

/-- The compiled layout read as intervals: starting from `cur`, every
field's offset is at or past the running end, so fields are placed in
declaration order and never overlap (padding, not reordering, fills any
gap). -/
def layoutChainOK : Nat → List (String × Nat × Nat) → Prop
  | _, [] => True
  | cur, e :: rest => cur ≤ e.2.1 ∧ layoutChainOK (e.2.1 + e.2.2) rest

section Examples

/-- C1's example: `a: uint8 = 1`, `b: uint16 = 0x1234`, frozen. -/
def exC1 : AtomicState :=
  freeze ((uint16 ((uint8 (mkAtomic "Example") "a" none (some 1)).1)
    "b" none (some 0x1234)).1)

/-- The compiled type of `exC1`. -/
def exC1T : CType :=
  .struct "Example_s" [("a", c_uint8), ("b", c_uint16)]

/-- C2's first example: `a: uint8`, `b: uint16`, frozen. -/
def exC2f : AtomicState :=
  freeze ((uint16 ((uint8 (mkAtomic "Example") "a" none none).1) "b" none none).1)

/-- C2's child struct: `x, y : uint16`, frozen (size 4). -/
def childC2 : AtomicState :=
  freeze ((uint16 ((uint16 (mkAtomic "Child") "x" none none).1) "y" none none).1)

/-- C2's parent: own field `a: uint8`, then `embed('child', ...)`. -/
def parentC2 : AtomicState :=
  (embed ((uint8 (mkAtomic "Parent") "a" none none).1) "child" childC2 base_struct).1

/-- C3's input: a struct with a single `uint8 a`, frozen (cursor 1). -/
def exC3 : AtomicState := freeze ((uint8 (mkAtomic "Example") "a" none none).1)

/-- C4's input: fields `a, b, c` (all `uint8`), cursor 3. -/
def stABC : AtomicState :=
  (uint8 ((uint8 ((uint8 (mkAtomic "Example") "a" none none).1)
    "b" none none).1) "c" none none).1

/-- C4's run: `with after('b'):` declare `d`, `e`. -/
def exC4 : AtomicState × Except AtomicErr Unit :=
  afterRun stABC (some "b") (fun s => addMany s [("d", c_uint8), ("e", c_uint8)])

/-- C5's input: a single field `a: uint8`, cursor 1. -/
def exC5 : AtomicState := (uint8 (mkAtomic "Example") "a" none none).1

/-- C6's input: `a: uint8, default 5`, unfrozen. -/
def exC6pre : AtomicState := (uint8 (mkAtomic "Example") "a" none (some 5)).1

/-- C6's run: `with replace('a'): uint16('a')`. -/
def exC6 : AtomicState :=
  (replaceRun exC6pre "a" (fun s => uint16 s "a" none none)).1

/-- C9's input: `a, b : uint8`, then `array('c', uint16, length=4)`. -/
def exC9 : AtomicState :=
  (array ((uint8 ((uint8 (mkAtomic "Example") "a" none none).1)
    "b" none none).1) "c" (fun s n => uint16 s n none none) 4).1

end Examples

/-! Helper lemmas shared by the claim theorems. -/

theorem le_alignUp (n a : Nat) : n ≤ alignUp n a := by
  unfold alignUp
  split
  · exact Nat.le_refl n
  · rename_i h
    have ha : 0 < a := Nat.pos_of_ne_zero h
    have h1 : a * ((n + a - 1) / a) + (n + a - 1) % a = n + a - 1 :=
      Nat.div_add_mod (n + a - 1) a
    have h2 : (n + a - 1) % a < a := Nat.mod_lt _ ha
    have h3 : (n + a - 1) / a * a = a * ((n + a - 1) / a) := Nat.mul_comm _ _
    omega

theorem layoutChainOK_fieldLayout (fs : List (String × CType)) :
    ∀ cur : Nat, layoutChainOK cur (fieldLayout fs cur) := by
  induction fs with
  | nil => intro cur; simp [fieldLayout, layoutChainOK]
  | cons f rest ih =>
    intro cur
    simp only [fieldLayout, layoutChainOK]
    exact ⟨le_alignUp _ _, ih _⟩

theorem structEnd_le_ctypeSize (name : String) (fs : List (String × CType)) :
    structEnd fs 0 ≤ ctypeSize (CType.struct name fs) := by
  simp only [ctypeSize]
  exact le_alignUp _ _

theorem _add_commits (st : AtomicState) (n : String) (t : CType)
    (w d : Option Nat) (hs : st.simulate = false) (hd : st.data = none)
    (hn : n ≠ "_") :
    _add st n t w d =
      ({ st with fields := pyInsert st.fields st.fieldPos ⟨n, t, w⟩,
                 fieldPos := st.fieldPos + 1,
                 defaults := match d with
                   | some v => dictSet st.defaults n v
                   | none => st.defaults }, .ok (n, t)) := by
  simp [_add, hs, hd, hn]

theorem addMany_ok (fs : List (String × CType)) :
    ∀ st : AtomicState, st.simulate = false → st.data = none →
    (∀ p ∈ fs, p.1 ≠ "_") →
    (addMany st fs).1.fieldPos = st.fieldPos + fs.length
      ∧ (addMany st fs).1.simulate = false
      ∧ (addMany st fs).1.data = none
      ∧ (addMany st fs).2 = Except.ok () := by
  induction fs with
  | nil => intro st hs hd _; simp [addMany, hs, hd]
  | cons p rest ih =>
    intro st hs hd hn
    obtain ⟨n, t⟩ := p
    have hn0 : n ≠ "_" := by
      have := hn (n, t) (List.mem_cons_self _ _)
      simpa using this
    have hstep : _add st n t none none =
        ({ st with fields := pyInsert st.fields st.fieldPos ⟨n, t, none⟩,
                   fieldPos := st.fieldPos + 1 }, .ok (n, t)) := by
      simp [_add, hs, hd, hn0]
    have ih' := ih ({ st with
        fields := pyInsert st.fields st.fieldPos ⟨n, t, none⟩,
        fieldPos := st.fieldPos + 1 }) hs hd
      (fun p hp => hn p (List.mem_cons_of_mem _ hp))
    simp only [addMany, hstep]
    refine ⟨?_, ih'.2.1, ih'.2.2.1, ih'.2.2.2⟩
    rw [ih'.1]
    simp only [List.length_cons]
    push_cast
    ring

theorem save_none_eq (st : AtomicState) (d : List Nat)
    (hd : st.data = some d) : save st none = (st, .ok d) := by
  simp [save, hd]

theorem load_exact (st : AtomicState) (t : CType) (d0 d : List Nat)
    (ht : st.ctype = some t) (hd : st.data = some d0)
    (hl : d.length = ctypeSize t) :
    load st d = ({ st with data := some d }, .ok ()) := by
  unfold load
  rw [ht, hd]
  simp only
  rw [← hl, List.take_length]
  simp

/-! The claim theorems. -/

/-- C1: for every frozen struct instance (the byte image has the size of
the compiled type, as `freeze` and a successful `load` guarantee),
`save()` followed by `load()` of the produced bytes yields an Instance
byte-for-byte identical to the original; in particular the example
struct with `a: uint8 = 1` and `b: uint16 = 0x1234` reconstructs
`a == 1` and `b == 0x1234` after the round trip. -/
theorem load_save_roundtrip :
    (∀ (st : AtomicState) (d : List Nat) (t : CType),
      st.data = some d → st.ctype = some t → d.length = ctypeSize t →
      roundtrip st = (st, .ok ()))
    ∧ roundtrip exC1 = (exC1, .ok ())
    ∧ getField (roundtrip exC1).1 "a" = some 1
    ∧ getField (roundtrip exC1).1 "b" = some 0x1234 := by
  have main : ∀ (st : AtomicState) (d : List Nat) (t : CType),
      st.data = some d → st.ctype = some t → d.length = ctypeSize t →
      roundtrip st = (st, .ok ()) := by
    intro st d t hd ht hl
    have hst : { st with data := some d } = st := by
      cases st
      simp only at hd
      rw [hd]
    unfold roundtrip
    rw [save_none_eq st d hd]
    simp only
    rw [load_exact st t d d ht hd hl, hst]
  exact ⟨main, main exC1 [1, 0, 52, 18] exC1T rfl rfl rfl, rfl, rfl⟩

/-- C1 witness: the round-trip theorem applied to the concrete example
struct (`a: uint8 = 1`, `b: uint16 = 0x1234`, frozen; byte image
`[1, 0, 52, 18]`). -/
theorem load_save_roundtrip_witness : roundtrip exC1 = (exC1, .ok ()) :=
  load_save_roundtrip.1 exC1 [1, 0, 52, 18] exC1T rfl rfl rfl

/-- C5: on an unfrozen table outside simulation mode, `remove(name)`
fails with CursorRewindError exactly when the position of `name` is
strictly greater than the cursor, leaving table and cursor unchanged on
failure; otherwise it removes the descriptor, returns it, and decrements
the cursor (the removed position is then ≤ the cursor). -/
theorem remove_cursor_spec (st : AtomicState) (name : String) (pos : Nat)
    (f : Field) (hs : st.simulate = false) (hfz : st.data = none)
    (h : findIdxAux st.fields name 0 = some (pos, f)) :
    if st.fieldPos < (pos : Int) then
      remove st name = (st, .error .cursorRewind)
    else
      remove st name =
        ({ st with fieldPos := st.fieldPos - 1,
                   fields := st.fields.eraseIdx pos }, .ok f) := by
  have hnotfrozen : st.data = none := hfz
  have hsim : ¬ (false = true) := by simp
  by_cases hc : st.fieldPos < (pos : Int)
  · have hcond : ¬ (st.fieldPos ≥ (pos : Int)) := by omega
    rw [if_pos hc]
    simp only [remove, h, hs]
    rw [if_neg hsim, if_neg hcond]
  · have hcond : st.fieldPos ≥ (pos : Int) := by omega
    rw [if_neg hc]
    simp only [remove, h, hs]
    rw [if_neg hsim, if_pos hcond]

/-- C5 witness: one field `a` at position 0, cursor at 1 — removal
succeeds, pops the descriptor and decrements the cursor to 0. -/
theorem remove_cursor_spec_witness :
    remove exC5 "a"
      = ({ exC5 with fieldPos := 0, fields := [] }, .ok ⟨"a", c_uint8, none⟩) := by
  have h := remove_cursor_spec exC5 "a" 0 ⟨"a", c_uint8, none⟩ rfl rfl rfl
  rw [if_neg (by decide)] at h
  exact h

/-- C7: `load(source)` fails with ShortReadError whenever the reader
yields fewer than `sizeof(CompiledType)` bytes, and on that failure the
current Instance is unchanged; on success the Instance is replaced by a
copy of exactly the first `sizeof` bytes of the stream (the new instance
is a function of those byte values alone — the model of the buffer copy
`from_buffer_copy` makes). -/
theorem load_short_read_spec (st : AtomicState) (t : CType)
    (d source : List Nat) (ht : st.ctype = some t) (hd : st.data = some d) :
    (source.length < ctypeSize t → load st source = (st, .error .shortRead))
    ∧ (ctypeSize t ≤ source.length →
        load st source
          = ({ st with data := some (source.take (ctypeSize t)) }, .ok ())) := by
  unfold load
  rw [ht, hd]
  simp only
  constructor
  · intro h
    rw [if_pos (by rw [List.length_take]; omega)]
  · intro h
    rw [if_neg (by rw [List.length_take]; omega)]

/-- C7 witness: the example struct has a 4-byte compiled type; a 3-byte
stream makes `load` fail and leaves the state unchanged, while a 5-byte
stream succeeds and installs a copy of its first 4 bytes. -/
theorem load_short_read_spec_witness :
    load exC1 [1, 2, 3] = (exC1, .error .shortRead)
    ∧ load exC1 [9, 9, 9, 9, 9]
        = ({ exC1 with data := some [9, 9, 9, 9] }, .ok ()) := by
  constructor
  · exact (load_short_read_spec exC1 exC1T [1, 0, 52, 18] [1, 2, 3]
      rfl rfl).1 (by decide)
  · have h := (load_short_read_spec exC1 exC1T [1, 0, 52, 18]
      [9, 9, 9, 9, 9] rfl rfl).2 (by decide)
    simpa using h

/-- C2 counterexample: the compiled layout is not tightly packed.  In
the frozen struct `\x7ba: uint8, b: uint16\x7d` the offset of `b` is 2, not
the sum 1 of the preceding sizes, and the total size is 4, not 3; and
for `embed('child', ...)` with a two-`uint16` child after one own
`uint8` field, `sizeof(parent)` is 6, not `sizeof(child) + 1 = 5`. -/
theorem tight_packing_counterexample :
    fieldOffset exC2f "b" = some 2
    ∧ fieldOffset exC2f "b" ≠ some (ctypeSize c_uint8)
    ∧ lenSt exC2f = some 4
    ∧ lenSt exC2f ≠ some (ctypeSize c_uint8 + ctypeSize c_uint16)
    ∧ lenSt childC2 = some 4
    ∧ lenSt (freeze parentC2) = some 6
    ∧ lenSt (freeze parentC2)
        ≠ some (ctypeSize c_uint16 * 2 + ctypeSize c_uint8) := by
  exact ⟨rfl, by decide, rfl, by decide, rfl, rfl, by decide⟩

/-- C2 amended: the compiled layout follows the ctypes rules under
`_pack_ = 32` (bytes): fields are laid out in declaration order at
nondecreasing, non-overlapping offsets — each field starts at or past
the end of its predecessor, with alignment padding (never reordering)
filling any gap — and the total size is the end of the last field
rounded up to the struct alignment, so it is at least that end.  In the
examples: `b` sits at offset 2 (= 1 rounded up to its 2-byte alignment)
and `sizeof(parent)` is `1 (own uint8) + 1 (padding) + 4 (child)`. -/
theorem layout_alignment_amended :
    (∀ (fs : List (String × CType)) (cur : Nat),
      layoutChainOK cur (fieldLayout fs cur))
    ∧ (∀ (name : String) (fs : List (String × CType)),
      structEnd fs 0 ≤ ctypeSize (CType.struct name fs))
    ∧ fieldOffset exC2f "b" = some (alignUp (ctypeSize c_uint8) (ctypeAlign c_uint16))
    ∧ fieldOffset (freeze parentC2) "child" = some 2
    ∧ lenSt (freeze parentC2)
        = some (ctypeSize c_uint8 + 1 + ctypeSize c_uint16 * 2) := by
  exact ⟨fun fs cur => layoutChainOK_fieldLayout fs cur,
    fun name fs => structEnd_le_ctypeSize name fs, rfl, rfl, rfl⟩

/-- C3: the claim (every `add`/`remove`/`replace` after `freeze()` fails
with StructFrozenError leaving the table unchanged) is what `freeze`'s
own docstring promises, but the code only guards `_add`: on the frozen
one-field struct, `remove('a')` succeeds, pops the descriptor and
returns it, and `replace('a')` removes the field before the in-scope
`add` raises the frozen error — observable partial mutation. -/
theorem remove_after_freeze_mutates :
    exC3.data.isSome = true
    ∧ exC3.fields.map Field.name = ["a"]
    ∧ (_add exC3 "b" c_uint8 none none).2 = .error .frozenErr
    ∧ (_add exC3 "b" c_uint8 none none).1.fields.map Field.name = ["a"]
    ∧ (remove exC3 "a").2 = .ok ⟨"a", c_uint8, none⟩
    ∧ (remove exC3 "a").1.fields = []
    ∧ (replaceRun exC3 "a" (fun s => uint16 s "a" none none)).2
        = .error .frozenErr
    ∧ (replaceRun exC3 "a" (fun s => uint16 s "a" none none)).1.fields = [] := by
  exact ⟨rfl, rfl, rfl, rfl, rfl, rfl, rfl, rfl⟩

/-- C4 counterexample: with fields `[a, b, c]` and cursor 3, the scope
`after('b')` inserting `d, e` yields `[a, b, d, e, c]` but leaves the
cursor at 5, not at `position_after('b') + 2 = 4` as claimed: the exit
rule adds the saved cursor's excess over the scope position on top of
the insertions. -/
theorem after_cursor_counterexample :
    exC4.1.fields.map Field.name = ["a", "b", "d", "e", "c"]
    ∧ exC4.1.fieldPos = 5
    ∧ exC4.1.fieldPos ≠ 4 := by
  exact ⟨rfl, rfl, by decide⟩

/-- C4 amended: an `after(name)` scope inserting N fields leaves the
cursor at `pre_scope_cursor + N` whenever the pre-scope cursor was
strictly past the scope position `position_after(name)` (and exactly at
the restored pre-scope cursor otherwise), so subsequent declarations
continue past the pre-scope cursor rather than resetting; for fields
`[a, b, c]` with cursor 3, `after('b')` inserting `d, e` yields
`[a, b, d, e, c]` with the cursor left at 5. -/
theorem after_scope_cursor_amended :
    (∀ (st : AtomicState) (n : String) (pos : Nat)
        (fs : List (String × CType)),
      st.simulate = false → st.data = none → _find st n = some pos →
      (∀ p ∈ fs, p.1 ≠ "_") →
      (afterRun st (some n) (fun s => addMany s fs)).1.fieldPos =
        if (pos : Int) + 1 < st.fieldPos then st.fieldPos + fs.length
        else st.fieldPos)
    ∧ exC4.1.fields.map Field.name = ["a", "b", "d", "e", "c"]
    ∧ exC4.1.fieldPos = 5 := by
  refine ⟨?_, rfl, rfl⟩
  intro st n pos fs hs hd hfind hn
  simp only [afterRun, hfind]
  unfold withFieldPos
  have h1 := addMany_ok fs { st with fieldPos := (pos : Int) + 1 } hs hd hn
  simp only
  rw [h1.1]
  simp only [ctxExitRel]
  by_cases hc : (pos : Int) + 1 < st.fieldPos
  · rw [if_pos (show st.fieldPos > (pos : Int) + 1 from hc), if_pos hc]
    ring
  · rw [if_neg (show ¬ st.fieldPos > (pos : Int) + 1 from hc), if_neg hc]

/-- C4 amended witness: the cursor rule applied to the concrete
`[a, b, c]`, `after('b')`, `d, e` example: pre-scope cursor 3 is past
position 2, so the final cursor is `3 + 2 = 5`. -/
theorem after_scope_cursor_amended_witness : exC4.1.fieldPos = 5 := by
  have h := after_scope_cursor_amended.1 stABC "b" 1
    [("d", c_uint8), ("e", c_uint8)] rfl rfl rfl (by decide)
  simpa using h

/-- C6: on a table whose only field is `a: uint8` with default 5,
`with replace('a'): uint16('a')` leaves exactly one field `a`, of the
new 16-bit type, at the original slot 0, and the compiled size grows
from 1 to 2 — by the size delta of the field types. -/
theorem replace_retypes_in_place :
    exC6.fields.map Field.name = ["a"]
    ∧ exC6.fields.map Field.type = [c_uint16]
    ∧ fieldOffset (freeze exC6pre) "a" = some 0
    ∧ fieldOffset (freeze exC6) "a" = some 0
    ∧ lenSt (freeze exC6pre) = some 1
    ∧ lenSt (freeze exC6) = some 2
    ∧ lenSt (freeze exC6)
        = some (1 + (ctypeSize c_uint16 - ctypeSize c_uint8)) := by
  exact ⟨rfl, rfl, rfl, rfl, rfl, rfl, rfl⟩

/-- C8: while the simulate flag is set, `_add` mutates nothing — the
state comes back exactly as it went in — and returns only the
constructed `(name, type)` pair; and a `simulate()` scope restores the
prior flag value on every exit path, whatever the body did to the flag
and whether it returned normally or with an exception. -/
theorem simulate_no_mutation_and_restore :
    (∀ (st : AtomicState) (name : String) (ty : CType) (w d : Option Nat),
      _add { st with simulate := true } name ty w d
        = ({ st with simulate := true }, .ok (name, ty)))
    ∧ (∀ (α : Type) (st : AtomicState)
        (body : AtomicState → AtomicState × Except AtomicErr α),
      ((withSimulate st body).1).simulate = st.simulate) := by
  constructor
  · intro st name ty w d
    simp [_add]
  · intro α st body
    simp [withSimulate]

/-- C9: after `array('c', uint16, length=4)` on a table with two
`uint8` fields, the compiled layout gives `c` exactly
`sizeof(uint16) * 4 = 8` bytes, and `describe()` renders the field as
the (indented) line `ushort c[4];`. -/
theorem array_field_size_and_describe :
    fieldSizeSt (freeze exC9) "c" = some 8
    ∧ fieldSizeSt (freeze exC9) "c" = some (ctypeSize c_uint16 * 4)
    ∧ describe exC9
        = "struct Example_s \x7b\n  ubyte a;\n  ubyte b;\n  ushort c[4];\n\x7d"
    ∧ describe exC9
        = "struct Example_s \x7b\n  ubyte a;\n  ubyte b;\n"
            ++ "  ushort c[4];" ++ "\n\x7d" := by
  exact ⟨rfl, rfl, by decide, by decide⟩

/-- C10: `_add` (hence every primitive field builder) raises exactly
when simulation is off and the table is frozen or the name is the
sentinel; with the simulate flag set, even the sentinel name on a
frozen struct returns the `(name, type)` pair without raising and
without any mutation. -/
theorem add_error_characterization :
    ∀ (st : AtomicState) (name : String) (ty : CType) (w d : Option Nat)
      (l : List Nat),
      ((∃ e, (_add st name ty w d).2 = .error e) ↔
        st.simulate = false ∧ (st.data.isSome = true ∨ name = "_"))
      ∧ _add { st with simulate := true, data := some l } "_" ty w d
        = ({ st with simulate := true, data := some l }, .ok ("_", ty)) := by
  intro st name ty w d l
  constructor
  · by_cases hs : st.simulate
    · simp [_add, hs]
    · by_cases hd : st.data.isSome
      · simp [_add, hs, hd]
      · by_cases hn : name = "_"
        · simp [_add, hs, hd, hn]
        · simp [_add, hs, hd, hn]
  · simp [_add]

end AtomicStruct
